import Mathlib

/-!
Verification of the contract-puller repository (src/index.js) against its
natural-language specification.

The JavaScript source is shallowly embedded below:
* `Json` models JavaScript values produced by `JSON.parse`; numbers keep their
  raw lexeme so no floating-point semantics is needed.
* `jsonParse` models `JSON.parse` (strict JSON grammar, duplicate object keys
  resolved last-wins in first position, as in JavaScript); it is fuel-based and
  total.  `Char.ofNat` is used for the brace characters and for `\u` escapes.
* `parseSourceCode` embeds the function of the same name (index.js lines
  127-162), `effectiveContent`/`writtenFiles` the per-file content rule of
  `writeContractFiles` (lines 179-193), `loadResults`/`upsertResults`/
  `saveResults` the manifest store (lines 229-258), and `mainRun` the proxy
  resolution flow of `main` (lines 277-345) with the network fetch passed in
  as an explicit function and the performed filesystem/manifest operations
  returned as an effect trace.
-/

/-- JavaScript value as produced by `JSON.parse`.  Numbers keep the raw
    lexeme (no float semantics is needed by any claim). -/
inductive Json where
  | null
  | bool (b : Bool)
  | num (lexeme : String)
  | str (s : String)
  | arr (elems : List Json)
  | obj (fields : List (String × Json))

/-- JavaScript property assignment on an association list: replace the value
    at the first occurrence of the key (keeping its position), else append.
    This is exactly how `o[k] = v` behaves on a JavaScript object. -/
def resultsSet {α : Type} : List (String × α) → String → α → List (String × α)
  | [], k, v => [(k, v)]
  | (k', v') :: t, k, v => if k' = k then (k, v) :: t else (k', v') :: resultsSet t k v

/-- JavaScript property read on an association list (first match). -/
def lookupKey {α : Type} : List (String × α) → String → Option α
  | [], _ => none
  | (k', v) :: t, k => if k' = k then some v else lookupKey t k

/-- Number of entries of an association list carrying a given key. -/
def countKey {α : Type} (l : List (String × α)) (k : String) : Nat :=
  (l.filter (fun p => p.1 == k)).length

/-- JSON whitespace. -/
def jsonWsChar (c : Char) : Bool :=
  c = ' ' || c = '\t' || c = '\n' || c = Char.ofNat 13

def skipWs : List Char → List Char
  | [] => []
  | c :: cs => if jsonWsChar c then skipWs cs else c :: cs

def hexDigit (c : Char) : Option Nat :=
  let n := c.toNat
  if 48 ≤ n ∧ n ≤ 57 then some (n - 48)
  else if 97 ≤ n ∧ n ≤ 102 then some (n - 87)
  else if 65 ≤ n ∧ n ≤ 70 then some (n - 55)
  else none

def escChar (e : Char) : Option Char :=
  if e = '"' then some '"'
  else if e = '\\' then some '\\'
  else if e = '/' then some '/'
  else if e = 'b' then some (Char.ofNat 8)
  else if e = 'f' then some (Char.ofNat 12)
  else if e = 'n' then some '\n'
  else if e = 'r' then some (Char.ofNat 13)
  else if e = 't' then some '\t'
  else none

/-- Body of a JSON string literal, after the opening quote: returns the
    decoded characters and the input remaining after the closing quote.
    Raw control characters are rejected, escapes are decoded. -/
def parseStringBody : List Char → Option (List Char × List Char)
  | [] => none
  | '"' :: cs => some ([], cs)
  | '\\' :: [] => none
  | '\\' :: e :: cs =>
    match escChar e with
    | some ch =>
      match parseStringBody cs with
      | some (acc, rest) => some (ch :: acc, rest)
      | none => none
    | none =>
      if e = 'u' then
        match cs with
        | h1 :: h2 :: h3 :: h4 :: cs2 =>
          match hexDigit h1, hexDigit h2, hexDigit h3, hexDigit h4 with
          | some a, some b, some c, some d =>
            match parseStringBody cs2 with
            | some (acc, rest) =>
              some (Char.ofNat (((a * 16 + b) * 16 + c) * 16 + d) :: acc, rest)
            | none => none
          | _, _, _, _ => none
        | _ => none
      else none
  | c :: cs =>
    if c.toNat < 32 then none
    else
      match parseStringBody cs with
      | some (acc, rest) => some (c :: acc, rest)
      | none => none

def parseDigits (cs : List Char) : List Char × List Char := cs.span Char.isDigit

def parseExpTail (e : Char) (cs : List Char) : Option (List Char × List Char) :=
  let (sgn, cs1) :=
    match cs with
    | '+' :: t => ([('+' : Char)], t)
    | '-' :: t => ([('-' : Char)], t)
    | _ => ([], cs)
  let (ds, cs2) := parseDigits cs1
  if ds.isEmpty then none else some (e :: (sgn ++ ds), cs2)

def parseExpPart (cs : List Char) : Option (List Char × List Char) :=
  match cs with
  | 'e' :: rest => parseExpTail 'e' rest
  | 'E' :: rest => parseExpTail 'E' rest
  | _ => some ([], cs)

def parseFracPart (cs : List Char) : Option (List Char × List Char) :=
  match cs with
  | '.' :: rest =>
    let (ds, cs2) := parseDigits rest
    if ds.isEmpty then none else some ('.' :: ds, cs2)
  | _ => some ([], cs)

/-- JSON number lexeme: sign, integer part, optional fraction and exponent. -/
def parseNumberLex (cs : List Char) : Option (List Char × List Char) :=
  let (sgn, cs1) :=
    match cs with
    | '-' :: t => ([('-' : Char)], t)
    | _ => ([], cs)
  match cs1 with
  | [] => none
  | c :: rest =>
    if c = '0' then
      match parseFracPart rest with
      | none => none
      | some (f, cs3) =>
        match parseExpPart cs3 with
        | none => none
        | some (ex, cs4) => some (sgn ++ [c] ++ f ++ ex, cs4)
    else if c.isDigit then
      let (ds, cs2) := parseDigits rest
      match parseFracPart cs2 with
      | none => none
      | some (f, cs3) =>
        match parseExpPart cs3 with
        | none => none
        | some (ex, cs4) => some (sgn ++ (c :: ds) ++ f ++ ex, cs4)
    else none

def matchLit : List Char → List Char → Option (List Char)
  | [], cs => some cs
  | _ :: _, [] => none
  | p :: ps, c :: cs => if c = p then matchLit ps cs else none

mutual

/-- One JSON value (fuel-based recursion; the fuel chosen in `jsonParse` is
    always sufficient because every recursive step consumes input). -/
def parseVal : Nat → List Char → Option (Json × List Char)
  | 0, _ => none
  | fuel + 1, cs =>
    match skipWs cs with
    | [] => none
    | c :: rest =>
      if c = Char.ofNat 123 then
        match skipWs rest with
        | d :: rest2 =>
          if d = Char.ofNat 125 then some (.obj [], rest2)
          else parseMembers fuel (d :: rest2) []
        | [] => none
      else if c = '[' then
        match skipWs rest with
        | d :: rest2 =>
          if d = ']' then some (.arr [], rest2)
          else parseElems fuel (d :: rest2) []
        | [] => none
      else if c = '"' then
        match parseStringBody rest with
        | some (acc, rest2) => some (.str (String.mk acc), rest2)
        | none => none
      else if c = 't' then
        match matchLit ['r', 'u', 'e'] rest with
        | some rest2 => some (.bool true, rest2)
        | none => none
      else if c = 'f' then
        match matchLit ['a', 'l', 's', 'e'] rest with
        | some rest2 => some (.bool false, rest2)
        | none => none
      else if c = 'n' then
        match matchLit ['u', 'l', 'l'] rest with
        | some rest2 => some (.null, rest2)
        | none => none
      else if c = '-' || c.isDigit then
        match parseNumberLex (c :: rest) with
        | some (lex, rest2) => some (.num (String.mk lex), rest2)
        | none => none
      else none

/-- Members of a JSON object (duplicate keys last-wins, like JavaScript). -/
def parseMembers : Nat → List Char → List (String × Json) → Option (Json × List Char)
  | 0, _, _ => none
  | fuel + 1, cs, acc =>
    match skipWs cs with
    | '"' :: rest =>
      match parseStringBody rest with
      | none => none
      | some (keyChars, rest2) =>
        match skipWs rest2 with
        | ':' :: rest4 =>
          match parseVal fuel rest4 with
          | none => none
          | some (v, rest5) =>
            let acc2 := resultsSet acc (String.mk keyChars) v
            match skipWs rest5 with
            | ',' :: rest7 => parseMembers fuel rest7 acc2
            | d :: rest7 =>
              if d = Char.ofNat 125 then some (.obj acc2, rest7) else none
            | [] => none
        | _ => none
    | _ => none

/-- Elements of a JSON array. -/
def parseElems : Nat → List Char → List Json → Option (Json × List Char)
  | 0, _, _ => none
  | fuel + 1, cs, acc =>
    match parseVal fuel cs with
    | none => none
    | some (v, rest) =>
      let acc2 := acc ++ [v]
      match skipWs rest with
      | ',' :: rest2 => parseElems fuel rest2 acc2
      | ']' :: rest2 => some (.arr acc2, rest2)
      | _ => none

end

/-- Model of JavaScript `JSON.parse`: `some` on a valid JSON document
    (leading/trailing whitespace allowed, nothing else may follow the value),
    `none` where `JSON.parse` throws. -/
def jsonParse (s : String) : Option Json :=
  match parseVal (s.data.length + 1) s.data with
  | some (v, rest) => if (skipWs rest).isEmpty then some v else none
  | none => none

/-- Model of JavaScript `s.startsWith(p)`. -/
def jsStartsWith (s p : String) : Bool := p.data.isPrefixOf s.data

/-- The double-wrap compensation of `parseSourceCode` (index.js line 139):
    `sourceCode.slice(1, -1)` when the payload starts with two braces. -/
def unwrapDouble (s : String) : String :=
  if jsStartsWith s "\x7b\x7b" then String.mk ((s.data.drop 1).dropLast) else s

/-- File name for the single-file fallback (index.js lines 154, 160); the
    JavaScript truthiness test on `contractName` is emptiness on strings. -/
def fileNameFor (contractName : String) : String :=
  if contractName = "" then "Contract.sol" else contractName ++ ".sol"

/-- The single-file result map (index.js lines 155, 161). -/
def singleFileMap (contractName sourceCode : String) : Json :=
  .obj [(fileNameFor contractName, .obj [("content", .str sourceCode)])]

/-- JavaScript property access `j.k`: defined only on objects, `undefined`
    (here `none`) everywhere else, matching the uses in index.js. -/
def jsGetProp (j : Json) (k : String) : Option Json :=
  match j with
  | .obj l => lookupKey l k
  | _ => none

/-- A JSON-number lexeme denoting zero (every mantissa digit is 0). -/
def isZeroLexeme (s : String) : Bool :=
  (s.data.takeWhile (fun c => c != 'e' && c != 'E')).all
    (fun c => c = '0' || c = '.' || c = '-')

/-- JavaScript truthiness of a parsed JSON value. -/
def jsTruthy : Json → Bool
  | .null => false
  | .bool b => b
  | .num lex => !(isZeroLexeme lex)
  | .str s => !(s == "")
  | .arr _ => true
  | .obj _ => true

/-- The test `jsonData.sources && typeof jsonData.sources === 'object'`
    (index.js line 145) specialized to parsed JSON values: objects and arrays
    pass, `null` fails the truthiness conjunct, everything else fails the
    `typeof` conjunct. -/
def isObjLike : Json → Bool
  | .obj _ => true
  | .arr _ => true
  | _ => false

inductive PullError where
  | emptySource

/-- `parseSourceCode` (index.js lines 127-162), the spec's `normalize`:
    empty input is an error; a payload starting with a brace is parsed as JSON
    after the double-wrap compensation, taking the `sources` member when it is
    object-like, else the parsed value itself, falling back on a parse failure
    to a single-file map holding the original unstripped payload; any other
    payload becomes the single-file map. -/
def parseSourceCode (sourceCode : String) (contractName : String) : Except PullError Json :=
  if sourceCode = "" then .error .emptySource
  else if jsStartsWith sourceCode "\x7b" then
    match jsonParse (unwrapDouble sourceCode) with
    | some jsonData =>
      match jsGetProp jsonData "sources" with
      | some v => if isObjLike v then .ok v else .ok jsonData
      | none => .ok jsonData
    | none => .ok (singleFileMap contractName sourceCode)
  else .ok (singleFileMap contractName sourceCode)

/-- `Object.entries` as used on the normalized sources (index.js line 179). -/
def jsEntriesOf : Json → List (String × Json)
  | .obj l => l
  | .arr l => l.enum.map (fun p => (toString p.1, p.2))
  | .str s => s.data.enum.map (fun p => (toString p.1, Json.str (String.mk [p.2])))
  | _ => []

/-- Number of entries of a normalized source map. -/
def jsonEntries (j : Json) : Nat := (jsEntriesOf j).length

/-- The per-file content rule `fileData.content || fileData` of
    `writeContractFiles` (index.js line 180). -/
def effectiveContent (fileData : Json) : Json :=
  match jsGetProp fileData "content" with
  | some c => if jsTruthy c then c else fileData
  | none => fileData

/-- The files written by `writeContractFiles` (index.js lines 179-193):
    each entry path paired with its effective content. -/
def writtenFiles (sources : Json) : List (String × Json) :=
  (jsEntriesOf sources).map (fun e => (e.1, effectiveContent e.2))

/-- The metadata block built by `writeContractFiles` (index.js lines 196-206). -/
structure Metadata where
  contractName : String
  compilerVersion : String
  optimizationUsed : Bool
  runs : String
  evmVersion : String
  licenseType : String
  proxy : Bool
  implementation : String
  constructorArguments : String

/-- The value returned by `writeContractFiles` plus the address added by the
    caller (index.js lines 218-225, 293-296). -/
structure ContractResults where
  address : String
  fileCount : Nat
  contractDir : String
  metadata : Metadata
  abi : Json
  fileList : List String
  directoryName : String

def metadataJson (m : Metadata) : Json :=
  .obj [("contractName", .str m.contractName),
        ("compilerVersion", .str m.compilerVersion),
        ("optimizationUsed", .bool m.optimizationUsed),
        ("runs", .str m.runs),
        ("evmVersion", .str m.evmVersion),
        ("licenseType", .str m.licenseType),
        ("proxy", .bool m.proxy),
        ("implementation", .str m.implementation),
        ("constructorArguments", .str m.constructorArguments)]

/-- The manifest entry built by `saveResults` (index.js lines 245-253),
    stamped with the current time. -/
def mkEntryFields (cr : ContractResults) (now : String) : List (String × Json) :=
  [("address", .str cr.address),
   ("contractName", .str cr.metadata.contractName),
   ("directory", .str cr.directoryName),
   ("files", .arr (cr.fileList.map Json.str)),
   ("metadata", metadataJson cr.metadata),
   ("abi", cr.abi),
   ("fetchedAt", .str now)]

def mkEntryJson (cr : ContractResults) (now : String) : Json :=
  .obj (mkEntryFields cr now)

/-- JavaScript property assignment on a parsed JSON value.  On a non-object
    the persisted manifest is unchanged (property writes on primitives are
    discarded, and string-keyed properties of arrays are not serialized). -/
def jsSetProp : Json → String → Json → Json
  | .obj l, k, v => .obj (resultsSet l k v)
  | j, _, _ => j

/-- The load phase of `saveResults` (index.js lines 231-242): `none` models a
    missing results file; an unparsable document resets to the empty manifest.
    The function is total: no error can escape. -/
def loadResults : Option String → Json
  | none => .obj []
  | some s =>
    match jsonParse s with
    | some j => j
    | none => .obj []

/-- The update phase of `saveResults` (index.js lines 245-253): wholesale
    replacement of the entry keyed by the verbatim address. -/
def upsertResults (manifest : Json) (cr : ContractResults) (now : String) : Json :=
  jsSetProp manifest cr.address (mkEntryJson cr now)

/-- `saveResults` (index.js lines 229-258): load, upsert; the returned value
    is the manifest the final write persists. -/
def saveResults (existing : Option String) (cr : ContractResults) (now : String) : Json :=
  upsertResults (loadResults existing) cr now

/-- One explorer API record (`data.result[0]`), string-typed as delivered. -/
structure ContractRecord where
  SourceCode : String
  ABI : String
  ContractName : String
  CompilerVersion : String
  OptimizationUsed : String
  Runs : String
  EVMVersion : String
  LicenseType : String
  Proxy : String
  Implementation : String
  ConstructorArguments : String

/-- An observable filesystem-level operation performed by `main`:
    `writeFiles record label` is one `writeContractFiles(record, outputDir,
    label)` call (the write intent, with the directory label exactly as `main`
    passes it), `saveManifest address record` one `saveResults` call keyed by
    the given address string. -/
inductive MainEffect where
  | writeFiles (record : ContractRecord) (label : String)
  | saveManifest (address : String) (record : ContractRecord)

/-- The fetch/resolve flow of `main` (index.js lines 277-345), with the
    network fetch as an explicit function.  Returns the operations actually
    performed in order, and `some e` when the run aborts with an error.
    Operations performed before a failing implementation fetch remain in the
    trace: nothing is rolled back. -/
def mainRun (fetch : String → Except String ContractRecord) (address : String) :
    List MainEffect × Option String :=
  match fetch address with
  | .error e => ([], some e)
  | .ok cd =>
    if cd.Proxy = "1" ∧ cd.Implementation ≠ "" then
      match fetch cd.Implementation with
      | .error e =>
        ([.writeFiles cd (cd.ContractName ++ "_Proxy"), .saveManifest address cd], some e)
      | .ok impl =>
        ([.writeFiles cd (cd.ContractName ++ "_Proxy"), .saveManifest address cd,
          .writeFiles impl impl.ContractName, .saveManifest cd.Implementation impl], none)
    else
      ([.writeFiles cd cd.ContractName, .saveManifest address cd], none)

/-- Addresses under which manifest entries are saved, in order. -/
def savedAddresses (effects : List MainEffect) : List String :=
  effects.filterMap (fun e =>
    match e with
    | .saveManifest a _ => some a
    | _ => none)

/-- Concrete fixtures used by the witnesses below. -/
def proxyRecord : ContractRecord :=
  ⟨"pragma solidity ^0.8.0;", "[]", "TransparentProxy", "v0.8.20", "1", "200",
   "paris", "MIT", "1", "0xIMPL", ""⟩

def implRecord : ContractRecord :=
  ⟨"pragma solidity ^0.8.0;", "[]", "TokenV2", "v0.8.20", "1", "200",
   "paris", "MIT", "0", "", ""⟩

def plainRecord : ContractRecord :=
  ⟨"pragma solidity ^0.8.0;", "[]", "Token", "v0.8.20", "0", "",
   "paris", "MIT", "0", "", ""⟩

def fetchHappy : String → Except String ContractRecord := fun a =>
  if a = "0xORIG" then .ok proxyRecord
  else if a = "0xIMPL" then .ok implRecord
  else if a = "0xPLAIN" then .ok plainRecord
  else .error "not found"

def fetchBroken : String → Except String ContractRecord := fun a =>
  if a = "0xORIG" then .ok proxyRecord else .error "network down"

def sampleMetadata : Metadata :=
  ⟨"Token", "v0.8.20", true, "200", "paris", "MIT", false, "", ""⟩

def sampleResults : ContractResults :=
  ⟨"0xAbC", 1, "./contracts", sampleMetadata, Json.null, ["Token.sol"], "Token"⟩

/-! ## Association-list lemmas shared by the manifest theorems -/

theorem countKey_eq_zero {α : Type} {l : List (String × α)} {k : String}
    (h : k ∉ l.map Prod.fst) : countKey l k = 0 := by
  induction l with
  | nil => rfl
  | cons p t ih =>
    simp only [List.map_cons, List.mem_cons, not_or] at h
    have hne : (p.1 == k) = false := by
      rw [beq_eq_false_iff_ne]
      exact fun he => h.1 he.symm
    simp only [countKey, List.filter_cons, hne, Bool.false_eq_true, if_false]
    simpa [countKey] using ih h.2

theorem mem_keys_resultsSet {α : Type} {l : List (String × α)} {k a : String} {v : α}
    (h : a ∈ (resultsSet l k v).map Prod.fst) : a ∈ l.map Prod.fst ∨ a = k := by
  induction l with
  | nil =>
    simp [resultsSet] at h
    exact Or.inr h
  | cons p t ih =>
    obtain ⟨k', v'⟩ := p
    by_cases hk : k' = k
    · simp only [resultsSet, if_pos hk, List.map_cons, List.mem_cons] at h
      rcases h with h | h
      · exact Or.inr h
      · exact Or.inl (List.mem_cons_of_mem _ h)
    · simp only [resultsSet, if_neg hk, List.map_cons, List.mem_cons] at h
      rcases h with h | h
      · exact Or.inl (by simp [h])
      · rcases ih h with h2 | h2
        · exact Or.inl (List.mem_cons_of_mem _ h2)
        · exact Or.inr h2

theorem nodup_keys_resultsSet {α : Type} {l : List (String × α)} {k : String} {v : α}
    (h : (l.map Prod.fst).Nodup) : ((resultsSet l k v).map Prod.fst).Nodup := by
  induction l with
  | nil => simp [resultsSet]
  | cons p t ih =>
    obtain ⟨k', v'⟩ := p
    simp only [List.map_cons, List.nodup_cons] at h
    by_cases hk : k' = k
    · simp only [resultsSet, if_pos hk, List.map_cons, List.nodup_cons]
      exact ⟨hk ▸ h.1, h.2⟩
    · simp only [resultsSet, if_neg hk, List.map_cons, List.nodup_cons]
      refine ⟨?_, ih h.2⟩
      intro hmem
      rcases mem_keys_resultsSet hmem with h2 | h2
      · exact h.1 h2
      · exact hk h2

theorem countKey_resultsSet {α : Type} {l : List (String × α)} {k : String} {v : α}
    (h : (l.map Prod.fst).Nodup) : countKey (resultsSet l k v) k = 1 := by
  induction l with
  | nil => simp [resultsSet, countKey]
  | cons p t ih =>
    obtain ⟨k', v'⟩ := p
    simp only [List.map_cons, List.nodup_cons] at h
    by_cases hk : k' = k
    · simp only [resultsSet, if_pos hk]
      have h0 : countKey t k = 0 := countKey_eq_zero (hk ▸ h.1)
      simp only [countKey, List.filter_cons, beq_self_eq_true, if_true, List.length_cons] at h0 ⊢
      simpa [countKey] using h0
    · simp only [resultsSet, if_neg hk]
      have hne : (k' == k) = false := by rw [beq_eq_false_iff_ne]; exact hk
      simp only [countKey, List.filter_cons, hne, Bool.false_eq_true, if_false]
      simpa [countKey] using ih h.2

theorem lookupKey_resultsSet {α : Type} (l : List (String × α)) (k : String) (v : α) :
    lookupKey (resultsSet l k v) k = some v := by
  induction l with
  | nil => simp [resultsSet, lookupKey]
  | cons p t ih =>
    obtain ⟨k', v'⟩ := p
    by_cases hk : k' = k
    · simp [resultsSet, if_pos hk, lookupKey]
    · simp [resultsSet, if_neg hk, lookupKey, ih]

/-! ## Shape lemmas for the `mainRun` flow -/

theorem mainRun_single (fetch : String → Except String ContractRecord)
    (addr : String) (cd : ContractRecord)
    (h : fetch addr = .ok cd) (hc : ¬ (cd.Proxy = "1" ∧ cd.Implementation ≠ "")) :
    mainRun fetch addr
      = ([.writeFiles cd cd.ContractName, .saveManifest addr cd], none) := by
  simp only [mainRun, h]
  rw [if_neg hc]

theorem mainRun_proxy_ok (fetch : String → Except String ContractRecord)
    (addr : String) (cd impl : ContractRecord)
    (h : fetch addr = .ok cd) (hp : cd.Proxy = "1") (hi : cd.Implementation ≠ "")
    (hf : fetch cd.Implementation = .ok impl) :
    mainRun fetch addr
      = ([.writeFiles cd (cd.ContractName ++ "_Proxy"), .saveManifest addr cd,
          .writeFiles impl impl.ContractName, .saveManifest cd.Implementation impl], none) := by
  simp only [mainRun, h]
  rw [if_pos ⟨hp, hi⟩, hf]

theorem mainRun_proxy_err (fetch : String → Except String ContractRecord)
    (addr : String) (cd : ContractRecord) (e : String)
    (h : fetch addr = .ok cd) (hp : cd.Proxy = "1") (hi : cd.Implementation ≠ "")
    (hf : fetch cd.Implementation = .error e) :
    mainRun fetch addr
      = ([.writeFiles cd (cd.ContractName ++ "_Proxy"), .saveManifest addr cd], some e) := by
  simp only [mainRun, h]
  rw [if_pos ⟨hp, hi⟩, hf]

/-! ## Claim theorems -/

/-- Claim C1, counterexample: the non-empty payload consisting of two braces
    parses as an empty JSON object with no `sources` member, so
    `parseSourceCode` returns an empty map — the claimed invariant "output is
    never empty given non-empty input" fails. -/
theorem normalize_empty_map_counterexample :
    ("\x7b\x7d" : String) ≠ ""
    ∧ parseSourceCode "\x7b\x7d" "Foo" = .ok (Json.obj [])
    ∧ jsonEntries (Json.obj []) = 0 :=
  ⟨by decide, rfl, rfl⟩

/-- Claim C1, amended: for every non-empty rawSource that is not taken as a
    successfully parsed structured payload — it does not start with a brace,
    or its (possibly double-wrap stripped) text fails the JSON parse — the
    normalized map has at least one entry.  A successfully parsed structured
    payload may however be empty. -/
theorem normalize_nonempty_output (s n : String) (h1 : s ≠ "")
    (h2 : jsStartsWith s "\x7b" = false ∨ jsonParse (unwrapDouble s) = none) :
    ∃ j, parseSourceCode s n = .ok j ∧ 0 < jsonEntries j := by
  refine ⟨singleFileMap n s, ?_, ?_⟩
  · unfold parseSourceCode
    rw [if_neg h1]
    rcases h2 with h2 | h2
    · simp [h2]
    · by_cases hb : jsStartsWith s "\x7b"
      · simp [hb, h2]
      · simp [hb]
  · simp [jsonEntries, jsEntriesOf, singleFileMap]

theorem normalize_nonempty_output_witness :
    ∃ j, parseSourceCode "pragma solidity ^0.8.0;" "Foo" = .ok j ∧ 0 < jsonEntries j :=
  normalize_nonempty_output "pragma solidity ^0.8.0;" "Foo" (by decide) (Or.inl (by decide))

/-- Claim C3, counterexample: on the flat-string payload the code returns the
    parsed value itself, whose entry is the plain string "x", not a
    content-wrapped object — the claimed return value is wrong. -/
theorem flat_entry_wrapped_counterexample :
    parseSourceCode "\x7b\"a.sol\":\"x\"\x7d" "Foo"
      ≠ .ok (Json.obj [("a.sol", Json.obj [("content", Json.str "x")])]) := by
  intro h
  have h2 : Except.ok (ε := PullError) (Json.obj [("a.sol", Json.str "x")])
      = .ok (Json.obj [("a.sol", Json.obj [("content", Json.str "x")])]) := h
  simp at h2

/-- Claim C3, amended: `parseSourceCode` returns the flat-string entry
    unwrapped, and the writer then uses the string itself as the written
    content (so the persisted bytes match the claimed content "x"). -/
theorem flat_entry_returned_unwrapped :
    parseSourceCode "\x7b\"a.sol\":\"x\"\x7d" "Foo" = .ok (Json.obj [("a.sol", Json.str "x")])
    ∧ writtenFiles (Json.obj [("a.sol", Json.str "x")]) = [("a.sol", Json.str "x")] :=
  ⟨rfl, rfl⟩

/-- Claim C4, counterexample: for an object entry whose `.content` is the
    empty string, the `fileData.content || fileData` rule falls back to the
    whole entry object — the written content is not the empty string. -/
theorem empty_content_written_counterexample :
    writtenFiles (Json.obj [("a.sol", Json.obj [("content", Json.str "")])])
      = [("a.sol", Json.obj [("content", Json.str "")])]
    ∧ Json.obj [("content", Json.str "")] ≠ Json.str "" :=
  ⟨rfl, fun h => Json.noConfusion h⟩

/-- Claim C4, amended: the content written for each entry of a structured
    sources mapping is `effectiveContent`: for an object entry with a truthy
    `.content` sub-field it is that sub-field; for an object entry whose
    `.content` is the empty string (falsy) it is the entry itself; for a
    plain-string entry it is the entry itself. -/
theorem written_content_rule (l : List (String × Json)) (fd gd c : Json) (s : String)
    (h1 : jsGetProp fd "content" = some c) (h2 : jsTruthy c = true)
    (h3 : jsGetProp gd "content" = some (Json.str "")) :
    writtenFiles (Json.obj l) = l.map (fun e => (e.1, effectiveContent e.2))
    ∧ effectiveContent (Json.str s) = Json.str s
    ∧ effectiveContent fd = c
    ∧ effectiveContent gd = gd := by
  refine ⟨rfl, rfl, ?_, ?_⟩
  · unfold effectiveContent
    rw [h1]
    simp [h2]
  · unfold effectiveContent
    rw [h3]
    simp [jsTruthy]

theorem written_content_rule_witness :
    writtenFiles (Json.obj [("a.sol", Json.str "x")])
        = [("a.sol", Json.str "x")].map (fun e => (e.1, effectiveContent e.2))
    ∧ effectiveContent (Json.str "x") = Json.str "x"
    ∧ effectiveContent (Json.obj [("content", Json.str "y")]) = Json.str "y"
    ∧ effectiveContent (Json.obj [("content", Json.str "")])
        = Json.obj [("content", Json.str "")] :=
  written_content_rule [("a.sol", Json.str "x")] (Json.obj [("content", Json.str "y")])
    (Json.obj [("content", Json.str "")]) (Json.str "y") "x" rfl rfl rfl

/-- Claim C7: every payload that starts with a brace but whose (possibly
    double-wrap stripped) text fails the JSON parse normalizes, without
    raising, to the single-file map keyed by the contract name (or
    Contract.sol) whose content is the original unstripped payload. -/
theorem malformed_payload_fallback (s n : String)
    (h1 : jsStartsWith s "\x7b" = true)
    (h2 : jsonParse (unwrapDouble s) = none) :
    parseSourceCode s n = .ok (singleFileMap n s) := by
  have hs : s ≠ "" := fun he => by rw [he] at h1; exact absurd h1 (by decide)
  unfold parseSourceCode
  rw [if_neg hs]
  simp [h1, h2]

theorem malformed_payload_fallback_witness :
    parseSourceCode "\x7bnot-valid-json" "Foo"
      = .ok (singleFileMap "Foo" "\x7bnot-valid-json") :=
  malformed_payload_fallback "\x7bnot-valid-json" "Foo" (by decide) rfl

/-- Claim C2: a fetched record that is not a proxy (or has an empty
    implementation address) produces exactly one write intent for itself; a
    proxy record with a non-empty implementation address produces exactly two,
    in order: the proxy record under `contractName ++ "_Proxy"`, then the
    record fetched from the implementation address under its own contract
    name.  `MainEffect.writeFiles` effects are the write intents, each paired
    with the manifest save the code performs for it. -/
theorem proxy_resolution_intents
    (fetchA fetchB : String → Except String ContractRecord) (addrA addrB : String)
    (cdA cdB impl : ContractRecord)
    (hA : fetchA addrA = .ok cdA)
    (hA2 : ¬ (cdA.Proxy = "1" ∧ cdA.Implementation ≠ ""))
    (hB : fetchB addrB = .ok cdB)
    (hp : cdB.Proxy = "1") (hi : cdB.Implementation ≠ "")
    (hf : fetchB cdB.Implementation = .ok impl) :
    mainRun fetchA addrA
        = ([.writeFiles cdA cdA.ContractName, .saveManifest addrA cdA], none)
    ∧ mainRun fetchB addrB
        = ([.writeFiles cdB (cdB.ContractName ++ "_Proxy"), .saveManifest addrB cdB,
            .writeFiles impl impl.ContractName, .saveManifest cdB.Implementation impl], none) :=
  ⟨mainRun_single fetchA addrA cdA hA hA2, mainRun_proxy_ok fetchB addrB cdB impl hB hp hi hf⟩

theorem proxy_resolution_intents_witness :
    mainRun fetchHappy "0xPLAIN"
        = ([.writeFiles plainRecord plainRecord.ContractName,
            .saveManifest "0xPLAIN" plainRecord], none)
    ∧ mainRun fetchHappy "0xORIG"
        = ([.writeFiles proxyRecord (proxyRecord.ContractName ++ "_Proxy"),
            .saveManifest "0xORIG" proxyRecord,
            .writeFiles implRecord implRecord.ContractName,
            .saveManifest proxyRecord.Implementation implRecord], none) :=
  proxy_resolution_intents fetchHappy fetchHappy "0xPLAIN" "0xORIG" plainRecord proxyRecord
    implRecord rfl (by decide) rfl rfl (by decide) rfl

/-- Claim C5: when the implementation fetch of a proxy resolution fails, the
    whole run fails with that error, but the proxy record's file write and its
    manifest save — performed before the second fetch — remain in the trace:
    partial success, no rollback. -/
theorem proxy_impl_fetch_failure_partial
    (fetch : String → Except String ContractRecord) (addr : String)
    (cd : ContractRecord) (e : String)
    (h : fetch addr = .ok cd) (hp : cd.Proxy = "1") (hi : cd.Implementation ≠ "")
    (hf : fetch cd.Implementation = .error e) :
    mainRun fetch addr
      = ([.writeFiles cd (cd.ContractName ++ "_Proxy"), .saveManifest addr cd], some e) :=
  mainRun_proxy_err fetch addr cd e h hp hi hf

theorem proxy_impl_fetch_failure_partial_witness :
    mainRun fetchBroken "0xORIG"
      = ([.writeFiles proxyRecord (proxyRecord.ContractName ++ "_Proxy"),
          .saveManifest "0xORIG" proxyRecord], some "network down") :=
  proxy_impl_fetch_failure_partial fetchBroken "0xORIG" proxyRecord "network down"
    rfl rfl (by decide) rfl

/-- Claim C6: for a payload starting with the two-character sequence of two
    braces, exactly one character is stripped from each end before parsing, so
    whenever that stripped text `t` is itself a single-wrapped payload (starts
    with one brace, not two) that parses successfully, the double-wrapped
    payload normalizes to the same result as `t`. -/
theorem double_wrap_equivalence (s t n : String) (j : Json)
    (h0 : jsStartsWith s "\x7b" = true)
    (h1 : jsStartsWith s "\x7b\x7b" = true)
    (h2 : t = String.mk ((s.data.drop 1).dropLast))
    (h3 : jsStartsWith t "\x7b" = true)
    (h4 : jsStartsWith t "\x7b\x7b" = false)
    (h5 : jsonParse t = some j) :
    parseSourceCode s n = parseSourceCode t n := by
  have hs : s ≠ "" := fun he => by rw [he] at h0; exact absurd h0 (by decide)
  have ht : t ≠ "" := fun he => by rw [he] at h3; exact absurd h3 (by decide)
  have hu : unwrapDouble s = t := by
    unfold unwrapDouble
    simp [h1, h2]
  have hut : unwrapDouble t = t := by
    unfold unwrapDouble
    simp [h4]
  unfold parseSourceCode
  rw [if_neg hs, if_neg ht]
  simp [h0, h3, hu, hut, h5]

def dblPayload : String :=
  "\x7b\x7b\"sources\":\x7b\"a.sol\":\x7b\"content\":\"x\"\x7d\x7d\x7d\x7d"

def sglPayload : String :=
  "\x7b\"sources\":\x7b\"a.sol\":\x7b\"content\":\"x\"\x7d\x7d\x7d"

def sglParsed : Json :=
  .obj [("sources", .obj [("a.sol", .obj [("content", .str "x")])])]

theorem double_wrap_equivalence_witness :
    parseSourceCode dblPayload "Foo" = parseSourceCode sglPayload "Foo" :=
  double_wrap_equivalence dblPayload sglPayload "Foo" sglParsed
    (by decide) (by decide) (by decide) (by decide) (by decide) rfl

/-- Claim C8: loading a manifest document that fails to parse yields the
    empty manifest — `loadResults` is a total function, so no error can be
    raised — and the subsequent upsert (whose result is what the final write
    persists) proceeds from that empty manifest. -/
theorem corrupted_manifest_resets (s : String) (h : jsonParse s = none) :
    loadResults (some s) = Json.obj []
    ∧ ∀ (cr : ContractResults) (now : String),
        saveResults (some s) cr now = upsertResults (Json.obj []) cr now := by
  have hl : loadResults (some s) = Json.obj [] := by simp [loadResults, h]
  exact ⟨hl, fun cr now => by simp [saveResults, hl]⟩

theorem corrupted_manifest_resets_witness :
    loadResults (some "\x7boops") = Json.obj []
    ∧ ∀ (cr : ContractResults) (now : String),
        saveResults (some "\x7boops") cr now = upsertResults (Json.obj []) cr now :=
  corrupted_manifest_resets "\x7boops" rfl

/-- Claim C9: two successive upserts for the same address with the same
    contract data leave exactly one entry for that address; the surviving
    entry is the wholesale-built second entry (independent of any prior
    value, no field-level merge); and the two constructed entries differ only
    in the `fetchedAt` timestamp field. -/
theorem manifest_double_upsert (l : List (String × Json)) (cr : ContractResults)
    (t1 t2 : String) (h : (l.map Prod.fst).Nodup) :
    upsertResults (upsertResults (Json.obj l) cr t1) cr t2
      = Json.obj (resultsSet (resultsSet l cr.address (mkEntryJson cr t1))
          cr.address (mkEntryJson cr t2))
    ∧ countKey (resultsSet (resultsSet l cr.address (mkEntryJson cr t1))
          cr.address (mkEntryJson cr t2)) cr.address = 1
    ∧ lookupKey (resultsSet (resultsSet l cr.address (mkEntryJson cr t1))
          cr.address (mkEntryJson cr t2)) cr.address = some (mkEntryJson cr t2)
    ∧ jsSetProp (mkEntryJson cr t1) "fetchedAt" (Json.str t2) = mkEntryJson cr t2 :=
  ⟨rfl, countKey_resultsSet (nodup_keys_resultsSet h),
   lookupKey_resultsSet _ _ _, rfl⟩

theorem manifest_double_upsert_witness :
    upsertResults (upsertResults (Json.obj []) sampleResults "t1") sampleResults "t2"
      = Json.obj (resultsSet (resultsSet [] sampleResults.address
          (mkEntryJson sampleResults "t1")) sampleResults.address
          (mkEntryJson sampleResults "t2"))
    ∧ countKey (resultsSet (resultsSet [] sampleResults.address
          (mkEntryJson sampleResults "t1")) sampleResults.address
          (mkEntryJson sampleResults "t2")) sampleResults.address = 1
    ∧ lookupKey (resultsSet (resultsSet [] sampleResults.address
          (mkEntryJson sampleResults "t1")) sampleResults.address
          (mkEntryJson sampleResults "t2")) sampleResults.address
        = some (mkEntryJson sampleResults "t2")
    ∧ jsSetProp (mkEntryJson sampleResults "t1") "fetchedAt" (Json.str "t2")
        = mkEntryJson sampleResults "t2" :=
  manifest_double_upsert [] sampleResults "t1" "t2" (by simp)

/-- Claim C10: manifest entries are keyed by address strings taken verbatim:
    in a proxy run the two manifest saves are keyed exactly by the
    user-supplied address and by the explorer-supplied implementation string,
    and two upserts whose addresses differ only in letter casing produce two
    distinct manifest entries. -/
theorem manifest_keys_verbatim
    (fetch : String → Except String ContractRecord) (addr : String)
    (cd impl : ContractRecord)
    (h : fetch addr = .ok cd) (hp : cd.Proxy = "1") (hi : cd.Implementation ≠ "")
    (hf : fetch cd.Implementation = .ok impl) :
    savedAddresses (mainRun fetch addr).1 = [addr, cd.Implementation]
    ∧ ∀ v1 v2 : Json,
        resultsSet (resultsSet [] "0xAbC" v1) "0xabc" v2
          = [("0xAbC", v1), ("0xabc", v2)] := by
  constructor
  · rw [mainRun_proxy_ok fetch addr cd impl h hp hi hf]
    simp [savedAddresses]
  · intro v1 v2
    rfl

theorem manifest_keys_verbatim_witness :
    savedAddresses (mainRun fetchHappy "0xORIG").1 = ["0xORIG", proxyRecord.Implementation]
    ∧ ∀ v1 v2 : Json,
        resultsSet (resultsSet [] "0xAbC" v1) "0xabc" v2
          = [("0xAbC", v1), ("0xabc", v2)] :=
  manifest_keys_verbatim fetchHappy "0xORIG" proxyRecord implRecord
    rfl rfl (by decide) rfl
